import Mathlib

/-!
Verification of the bulk customer creation protocol of the CRM repository
(crm/schema.py, class BulkCreateCustomers and its helpers).

The embedding translates the Python source into executable Lean functions:

* the phone regex PHONE_RE and validate_phone (schema.py lines 114-119);
* the library email validator used by the code (django.core.validators
  validate_email), modelled from the Django implementation: the value must be
  nonempty, contain an at sign, the user part before the last at sign must be
  a dot-atom over the allowed character set, and the domain part must be a
  dotted hostname whose final label has length at least 2.  The quoted-string
  user form and the bracketed IP-literal domain form that Django also accepts
  are not modelled, and character classes are ASCII (the concrete inputs used
  below are all ASCII, so this does not affect any result);
* the validation loop and creation pass of BulkCreateCustomers.mutate
  (schema.py lines 199-248).  The database table of customers is a list of
  records; the existence query on email is a linear scan.  Python str.strip
  and str.lower are modelled by pyStrip and pyLower below (ASCII).
  A raised ValidationError is modelled by the message string it carries.

All string processing is written over the character list of the string with
structural recursion, so that every definition evaluates inside the kernel.
-/

namespace CRM

/-- Python str.strip: remove whitespace from both ends. -/
def pyStrip (s : String) : String :=
  ⟨((s.data.dropWhile Char.isWhitespace).reverse.dropWhile Char.isWhitespace).reverse⟩

/-- Python str.lower, ASCII case folding. -/
def pyLower (s : String) : String := ⟨s.data.map Char.toLower⟩

/-- Split a character list on a separator character; mirrors the semantics of
the Python str.split with a one-character separator. -/
def splitChar (sep : Char) : List Char → List (List Char)
  | [] => [[]]
  | c :: rest =>
    let r := splitChar sep rest
    if c = sep then [] :: r
    else
      match r with
      | [] => [[c]]
      | g :: gs => (c :: g) :: gs

/-- True when every character of the list is an ASCII decimal digit,
modelling the regex digit class. -/
def allDigits (cs : List Char) : Bool := cs.all Char.isDigit

/-- First alternative of PHONE_RE: an optional plus sign followed by 7 to 15
digits.  Note the plus is optional in the source regex. -/
def intlForm : List Char → Bool
  | '+' :: rest => allDigits rest && decide (7 ≤ rest.length) && decide (rest.length ≤ 15)
  | cs => allDigits cs && decide (7 ≤ cs.length) && decide (cs.length ≤ 15)

/-- Second alternative of PHONE_RE: three digits, dash, three digits, dash,
four digits. -/
def dashedForm : List Char → Bool
  | [a, b, c, d, e, f, g, h, i, j, k, l] =>
      a.isDigit && b.isDigit && c.isDigit && d = '-' &&
      e.isDigit && f.isDigit && g.isDigit && h = '-' &&
      i.isDigit && j.isDigit && k.isDigit && l.isDigit
  | _ => false

/-- Either alternative of PHONE_RE. -/
def phoneCore (cs : List Char) : Bool := intlForm cs || dashedForm cs

/-- PHONE_RE.match on a whole string.  The dollar anchor of the Python regex
also matches just before a single trailing newline, which the second disjunct
reproduces. -/
def phoneMatch (s : String) : Bool :=
  phoneCore s.data ||
    (match s.data.getLast? with
     | some c => c = '\n' && phoneCore s.data.dropLast
     | none => false)

/-- validate_phone raises exactly when the phone string is nonempty and does
not match PHONE_RE. -/
def validate_phone_fails (phone : String) : Bool :=
  (phone != "") && !(phoneMatch phone)

/-- Characters admitted in an atom of the user part of an email address by
the Django user regex.  Codes 39, 96, 123 and 125 are the apostrophe, the
backtick and the two curly braces. -/
def emailAtomChar (c : Char) : Bool :=
  c.isAlphanum || c = '!' || c = '#' || c = '$' || c = '%' || c = '&' ||
  c = '*' || c = '+' || c = '/' || c = '=' || c = '?' || c = '^' ||
  c = '_' || c = '~' || c = '-' || c = '|' ||
  c = Char.ofNat 39 || c = Char.ofNat 96 || c = Char.ofNat 123 || c = Char.ofNat 125

/-- The user part of an email address: one or more atoms of admitted
characters separated by single dots. -/
def dotAtomOk (cs : List Char) : Bool :=
  (splitChar '.' cs).all (fun a => !a.isEmpty && a.all emailAtomChar)

/-- A non-final hostname label: starts with an alphanumeric character, ends
with an alphanumeric character, contains only alphanumerics and dashes, and
has length at most 63. -/
def hostLabelOk (cs : List Char) : Bool :=
  match cs with
  | [] => false
  | c :: _ =>
      c.isAlphanum && decide (cs.length ≤ 63) &&
      cs.all (fun d => d.isAlphanum || d = '-') &&
      (match cs.getLast? with
       | some d => d.isAlphanum
       | none => false)

/-- The final hostname label: length between 2 and 63, alphanumerics and
dashes only, not ending in a dash. -/
def tldLabelOk (cs : List Char) : Bool :=
  decide (2 ≤ cs.length) && decide (cs.length ≤ 63) &&
  cs.all (fun d => d.isAlphanum || d = '-') &&
  (match cs.getLast? with
   | some d => d != '-'
   | none => false)

/-- The domain part of an email address: at least two dot-separated labels,
all but the last a host label and the last a top-level label. -/
def domainOk (cs : List Char) : Bool :=
  let labels := splitChar '.' cs
  decide (2 ≤ labels.length) && labels.dropLast.all hostLabelOk &&
    (match labels.getLast? with
     | some t => tldLabelOk t
     | none => false)

/-- The library email validator called by the code: the value is nonempty and
contains an at sign; the part before the last at sign is a dot-atom and the
part after it is a valid hostname. -/
def validate_email_ok (s : String) : Bool :=
  if s.data.isEmpty then false
  else if !(s.data.contains '@') then false
  else
    let parts := splitChar '@' s.data
    let user := (List.intersperse ['@'] parts.dropLast).flatten
    let dom := (parts.getLast?).getD []
    dotAtomOk user && domainOk dom

/-- A raw batch item as received by the mutation: name and email are required
strings, phone is optional. -/
structure BulkCustomerInput where
  name : String
  email : String
  phone : Option String
deriving DecidableEq, Repr

/-- A persisted customer row.  Identifier and timestamps play no role in any
claim and are omitted. -/
structure Customer where
  name : String
  email : String
  phone : Option String
deriving DecidableEq, Repr

/-- A validated payload, the tuple appended to valid_payloads in the source. -/
structure Payload where
  name : String
  email : String
  phone : Option String
deriving DecidableEq, Repr

/-- Customer.objects.create applied to a validated payload. -/
def Payload.toCustomer (p : Payload) : Customer := ⟨p.name, p.email, p.phone⟩

/-- The phone normalisation at the top of the loop body: None or the empty
string stay absent, anything else is stripped. -/
def normPhone : Option String → Option String
  | none => none
  | some p => if p = "" then none else some (pyStrip p)

/-- Trimmed and lower-cased email, used for every comparison. -/
def normEmail (s : String) : String := pyLower (pyStrip s)

/-- The normalised triple computed at the top of the loop body. -/
def normalizeItem (it : BulkCustomerInput) : Payload :=
  ⟨pyStrip it.name, normEmail it.email, normPhone it.phone⟩

/-- One iteration of the validation loop of BulkCreateCustomers.mutate:
the five checks in source order, each raising a ValidationError message, and
on success the validated payload. -/
def checkItem (db : List Customer) (seen : List String) (item : BulkCustomerInput) :
    Except String Payload :=
  let name := pyStrip item.name
  let email := normEmail item.email
  let phone := normPhone item.phone
  if name = "" then .error "Name is required."
  else if !(validate_email_ok email) then .error "Enter a valid email address."
  else if (match phone with
           | some p => validate_phone_fails p
           | none => false) then
    .error "Invalid phone format. Use +1234567890 or 123-456-7890."
  else if email ∈ seen then .error ("Duplicate email in request: " ++ email)
  else if db.any (fun c => c.email == email) then .error ("Email already exists: " ++ email)
  else .ok ⟨name, email, phone⟩

/-- The validation loop: enumerate counter, seen-emails set, valid payloads
and error strings are the loop state; the result is the final state.
Error strings carry the 1-based item position. -/
def bulkLoop (db : List Customer) :
    Nat → List String → List Payload → List String → List BulkCustomerInput →
    List String × List Payload × List String
  | _, seen, payloads, errors, [] => (seen, payloads, errors)
  | idx, seen, payloads, errors, item :: rest =>
    match checkItem db seen item with
    | .ok p => bulkLoop db (idx + 1) (seen ++ [p.email]) (payloads ++ [p]) errors rest
    | .error msg =>
        bulkLoop db (idx + 1) seen payloads
          (errors ++ ["Item " ++ toString (idx + 1) ++ ": " ++ msg]) rest

/-- The result object returned by the mutation. -/
structure BulkResult where
  customers : List Customer
  errors : List String
  success_count : Nat
  total_count : Nat
deriving DecidableEq, Repr

/-- BulkCreateCustomers.mutate with always-succeeding persistence: validate
every item, then create the valid payloads in order.  Returns the result
object together with the table after the call. -/
def BulkCreateCustomers.mutate (db : List Customer) (input : List BulkCustomerInput) :
    BulkResult × List Customer :=
  let st := bulkLoop db 0 [] [] [] input
  let created := st.2.1.map Payload.toCustomer
  (⟨created, st.2.2, created.length, input.length⟩, db ++ created)

/-- The creation pass inside transaction.atomic, with a persistence oracle
telling whether Customer.objects.create raises on a given payload.  The rows
are inserted sequentially; the first failure aborts with the exception. -/
def createLoop (failsOn : Payload → Bool) :
    List Customer → List Payload → Except String (List Customer × List Customer)
  | db, [] => .ok (db, [])
  | db, p :: rest =>
    if failsOn p then .error ("create failed: " ++ p.email)
    else
      match createLoop failsOn (db ++ [p.toCustomer]) rest with
      | .ok (db2, cs) => .ok (db2, p.toCustomer :: cs)
      | .error e => .error e

/-- BulkCreateCustomers.mutate with fallible persistence.  The creation loop
runs inside transaction.atomic and is not wrapped in any except clause, so a
persistence failure escapes the mutation as a single terminal error, result
none, and the transaction rollback restores the original table. -/
def mutateFallible (db : List Customer) (input : List BulkCustomerInput)
    (failsOn : Payload → Bool) : Option BulkResult × List Customer :=
  let st := bulkLoop db 0 [] [] [] input
  if st.2.1.isEmpty then (some ⟨[], st.2.2, 0, input.length⟩, db)
  else
    match createLoop failsOn db st.2.1 with
    | .ok (db2, created) => (some ⟨created, st.2.2, created.length, input.length⟩, db2)
    | .error _ => (none, db)

/-- The rejected items of a batch with their 0-based positions and raw
messages, in traversal order; a specification-side companion of bulkLoop used
to state the error-ordering claim. -/
def failuresFrom (db : List Customer) :
    Nat → List String → List BulkCustomerInput → List (Nat × String)
  | _, _, [] => []
  | idx, seen, item :: rest =>
    match checkItem db seen item with
    | .ok p => failuresFrom db (idx + 1) (seen ++ [p.email]) rest
    | .error m => (idx, m) :: failuresFrom db (idx + 1) seen rest

/-- The expected error list when every item of the batch is rejected because
its normalised email already exists, starting at a given 0-based index. -/
def alreadyExistsErrors : Nat → List BulkCustomerInput → List String
  | _, [] => []
  | idx, it :: rest =>
      ("Item " ++ toString (idx + 1) ++ ": " ++ ("Email already exists: " ++ normEmail it.email))
        :: alreadyExistsErrors (idx + 1) rest

/-- Modelled from the words of the specification, for comparison with the
source regex: the claimed international phone shape, a literal plus sign
followed by 7 to 15 digits. -/
def specPlusForm (s : String) : Bool :=
  match s.data with
  | '+' :: rest => allDigits rest && decide (7 ≤ rest.length) && decide (rest.length ≤ 15)
  | _ => false

/-- Inversion for a successful iteration: the item passed all five checks and
the payload is the normalised triple. -/
lemma checkItem_ok_iff (db : List Customer) (seen : List String) (item : BulkCustomerInput)
    (p : Payload) :
    checkItem db seen item = Except.ok p ↔
      (¬ pyStrip item.name = "" ∧ validate_email_ok (normEmail item.email) = true ∧
        (∀ q, normPhone item.phone = some q → validate_phone_fails q = false) ∧
        ¬ normEmail item.email ∈ seen ∧
        db.any (fun c => c.email == normEmail item.email) = false ∧
        p = normalizeItem item) := by
  simp only [checkItem, normalizeItem]
  cases hp : normPhone item.phone with
  | none =>
    split_ifs <;> simp_all
    exact eq_comm
  | some q =>
    split_ifs <;> simp_all
    exact eq_comm

/-- A candidate that passes the first four checks but whose normalised email
is already persisted is rejected with the already-exists message. -/
lemma checkItem_exists (db : List Customer) (seen : List String) (item : BulkCustomerInput)
    (h1 : ¬ pyStrip item.name = "")
    (h2 : validate_email_ok (normEmail item.email) = true)
    (h3 : ∀ q, normPhone item.phone = some q → validate_phone_fails q = false)
    (h4 : ¬ normEmail item.email ∈ seen)
    (h5 : db.any (fun c => c.email == normEmail item.email) = true) :
    checkItem db seen item = Except.error ("Email already exists: " ++ normEmail item.email) := by
  simp only [checkItem]
  cases hp : normPhone item.phone with
  | none => split_ifs <;> simp_all
  | some q => split_ifs <;> simp_all

/-- A candidate that passes the first three checks but whose normalised email
was already seen in this batch is rejected with the duplicate message. -/
lemma checkItem_dup (db : List Customer) (seen : List String) (item : BulkCustomerInput)
    (h1 : ¬ pyStrip item.name = "")
    (h2 : validate_email_ok (normEmail item.email) = true)
    (h3 : ∀ q, normPhone item.phone = some q → validate_phone_fails q = false)
    (h4 : normEmail item.email ∈ seen) :
    checkItem db seen item
      = Except.error ("Duplicate email in request: " ++ normEmail item.email) := by
  simp only [checkItem]
  cases hp : normPhone item.phone with
  | none => split_ifs <;> simp_all
  | some q => split_ifs <;> simp_all

/-- Every iteration adds its item either to the payloads or to the errors:
the two final lengths grow together by the length of the batch. -/
lemma bulkLoop_length (db : List Customer) :
    ∀ (input : List BulkCustomerInput) (idx : Nat) (seen : List String)
      (ps : List Payload) (errs : List String),
      (bulkLoop db idx seen ps errs input).2.1.length
        + (bulkLoop db idx seen ps errs input).2.2.length
        = ps.length + errs.length + input.length := by
  intro input
  induction input with
  | nil => intro idx seen ps errs; simp [bulkLoop]
  | cons item rest ih =>
    intro idx seen ps errs
    simp only [bulkLoop]
    cases h : checkItem db seen item with
    | ok p => rw [ih]; simp; omega
    | error m => rw [ih]; simp; omega

/-- The final error list extends the accumulator with one formatted message
per element of failuresFrom. -/
lemma bulkLoop_errors (db : List Customer) :
    ∀ (input : List BulkCustomerInput) (idx : Nat) (seen : List String)
      (ps : List Payload) (errs : List String),
      (bulkLoop db idx seen ps errs input).2.2
        = errs ++ (failuresFrom db idx seen input).map
            (fun q => "Item " ++ toString (q.1 + 1) ++ ": " ++ q.2) := by
  intro input
  induction input with
  | nil => intro idx seen ps errs; simp [bulkLoop, failuresFrom]
  | cons item rest ih =>
    intro idx seen ps errs
    simp only [bulkLoop, failuresFrom]
    cases h : checkItem db seen item with
    | ok p => rw [ih]
    | error m => rw [ih]; simp

/-- Every recorded failure position is at least the starting counter. -/
lemma failuresFrom_le (db : List Customer) :
    ∀ (input : List BulkCustomerInput) (idx : Nat) (seen : List String)
      (q : Nat × String), q ∈ failuresFrom db idx seen input → idx ≤ q.1 := by
  intro input
  induction input with
  | nil => intro idx seen q hq; simp [failuresFrom] at hq
  | cons item rest ih =>
    intro idx seen q hq
    simp only [failuresFrom] at hq
    cases h : checkItem db seen item with
    | ok p =>
      rw [h] at hq
      exact le_of_lt (lt_of_lt_of_le (Nat.lt_succ_self idx) (ih (idx + 1) _ q hq))
    | error m =>
      rw [h] at hq
      rcases List.mem_cons.mp hq with h1 | h1
      · simp [h1]
      · exact le_of_lt (lt_of_lt_of_le (Nat.lt_succ_self idx) (ih (idx + 1) _ q h1))

/-- Failure positions are strictly increasing in traversal order. -/
lemma failuresFrom_chain (db : List Customer) :
    ∀ (input : List BulkCustomerInput) (idx : Nat) (seen : List String),
      List.Chain' (fun a b => a < b) ((failuresFrom db idx seen input).map Prod.fst) := by
  intro input
  induction input with
  | nil => intro idx seen; simp [failuresFrom]
  | cons item rest ih =>
    intro idx seen
    simp only [failuresFrom]
    cases h : checkItem db seen item with
    | ok p => exact ih (idx + 1) _
    | error m =>
      simp only [List.map_cons]
      rw [List.chain'_cons']
      refine ⟨?_, ih (idx + 1) _⟩
      intro b hb
      have hmem := List.mem_of_mem_head? hb
      rcases List.mem_map.mp hmem with ⟨q, hq, rfl⟩
      exact lt_of_lt_of_le (Nat.lt_succ_self idx) (failuresFrom_le db rest (idx + 1) _ q hq)

/-- The seen-emails set tracks exactly the emails of the accepted payloads. -/
lemma bulkLoop_seen (db : List Customer) :
    ∀ (input : List BulkCustomerInput) (idx : Nat) (seen : List String)
      (ps : List Payload) (errs : List String),
      seen = ps.map Payload.email →
      (bulkLoop db idx seen ps errs input).1
        = ((bulkLoop db idx seen ps errs input).2.1).map Payload.email := by
  intro input
  induction input with
  | nil => intro idx seen ps errs h; simpa [bulkLoop]
  | cons item rest ih =>
    intro idx seen ps errs h
    simp only [bulkLoop]
    cases hc : checkItem db seen item with
    | ok p => exact ih (idx + 1) _ (ps ++ [p]) errs (by simp [h])
    | error m => exact ih (idx + 1) _ ps _ h

/-- The accepted payloads extend the accumulator with an order-preserving
selection of the normalised batch items. -/
lemma bulkLoop_payloads_sublist (db : List Customer) :
    ∀ (input : List BulkCustomerInput) (idx : Nat) (seen : List String)
      (ps : List Payload) (errs : List String),
      ∃ t, (bulkLoop db idx seen ps errs input).2.1 = ps ++ t ∧
        List.Sublist t (input.map normalizeItem) := by
  intro input
  induction input with
  | nil => intro idx seen ps errs; exact ⟨[], by simp [bulkLoop], List.nil_sublist _⟩
  | cons item rest ih =>
    intro idx seen ps errs
    simp only [bulkLoop]
    cases hc : checkItem db seen item with
    | ok p =>
      obtain ⟨t, ht, hs⟩ := ih (idx + 1) (seen ++ [p.email]) (ps ++ [p]) errs
      refine ⟨p :: t, by simpa using ht, ?_⟩
      have hp : p = normalizeItem item := ((checkItem_ok_iff db seen item p).mp hc).2.2.2.2.2
      rw [List.map_cons, hp]
      exact List.Sublist.cons₂ _ hs
    | error m =>
      obtain ⟨t, ht, hs⟩ := ih (idx + 1) seen ps _
      exact ⟨t, ht, hs.trans (List.sublist_cons_self _ _)⟩

/-- No two accepted payloads share an email: the duplicate check guards the
seen set, which contains every accepted email. -/
lemma bulkLoop_nodup (db : List Customer) :
    ∀ (input : List BulkCustomerInput) (idx : Nat) (seen : List String)
      (ps : List Payload) (errs : List String),
      (ps.map Payload.email).Nodup →
      (∀ e ∈ ps.map Payload.email, e ∈ seen) →
      ((bulkLoop db idx seen ps errs input).2.1.map Payload.email).Nodup := by
  intro input
  induction input with
  | nil => intro idx seen ps errs h1 h2; simpa [bulkLoop]
  | cons item rest ih =>
    intro idx seen ps errs h1 h2
    simp only [bulkLoop]
    cases hc : checkItem db seen item with
    | ok p =>
      have hinv := (checkItem_ok_iff db seen item p).mp hc
      have hpe : p.email = normEmail item.email := by rw [hinv.2.2.2.2.2]; rfl
      refine ih (idx + 1) _ (ps ++ [p]) errs ?_ ?_
      · simp only [List.map_append, List.map_cons, List.map_nil]
        refine List.Nodup.append h1 (List.nodup_singleton _) ?_
        intro e he he'
        simp only [List.mem_singleton] at he'
        subst he'
        exact hinv.2.2.2.1 (by rw [← hpe]; exact h2 _ he)
      · intro e he
        simp only [List.map_append, List.map_cons, List.map_nil, List.mem_append,
          List.mem_singleton] at he
        rcases he with he | he
        · exact List.mem_append_left _ (h2 _ he)
        · subst he; exact List.mem_append_right _ (by simp)
    | error m => exact ih (idx + 1) _ ps _ h1 h2

/-- When the persistence oracle never fails, the creation loop inserts every
payload in order and returns them in order. -/
lemma createLoop_ok (failsOn : Payload → Bool) :
    ∀ (ps : List Payload) (db : List Customer),
      (∀ p ∈ ps, failsOn p = false) →
      createLoop failsOn db ps
        = Except.ok (db ++ ps.map Payload.toCustomer, ps.map Payload.toCustomer) := by
  intro ps
  induction ps with
  | nil => intro db h; simp [createLoop]
  | cons p rest ih =>
    intro db h
    have hp : failsOn p = false := h p (by simp)
    simp only [createLoop, hp, Bool.false_eq_true, if_false]
    rw [ih (db ++ [p.toCustomer]) (fun q hq => h q (by simp [hq]))]
    simp

/-- When the persistence oracle fails on some payload of the list, the
creation loop aborts with an exception, whatever the table. -/
lemma createLoop_error (failsOn : Payload → Bool) :
    ∀ (ps : List Payload) (db : List Customer),
      (∃ p ∈ ps, failsOn p = true) →
      ∃ e, createLoop failsOn db ps = Except.error e := by
  intro ps
  induction ps with
  | nil => intro db h; simp at h
  | cons p rest ih =>
    intro db h
    by_cases hp : failsOn p = true
    · exact ⟨"create failed: " ++ p.email, by simp [createLoop, hp]⟩
    · have hrest : ∃ q ∈ rest, failsOn q = true := by
        rcases h with ⟨q, hq, hfq⟩
        rcases List.mem_cons.mp hq with rfl | hq'
        · exact absurd hfq hp
        · exact ⟨q, hq', hfq⟩
      obtain ⟨e, he⟩ := ih (db ++ [p.toCustomer]) hrest
      exact ⟨e, by simp [createLoop, hp, he]⟩

/-- If the run adds no error string, then every item validated: the payloads
are the normalised items in order, and each item passes the context-free
checks and its email is not persisted. -/
lemma bulkLoop_all_valid (db : List Customer) :
    ∀ (input : List BulkCustomerInput) (idx : Nat) (seen : List String)
      (ps : List Payload) (errs : List String),
      (bulkLoop db idx seen ps errs input).2.2 = errs →
      (bulkLoop db idx seen ps errs input).2.1 = ps ++ input.map normalizeItem ∧
      ∀ it ∈ input, ¬ pyStrip it.name = "" ∧ validate_email_ok (normEmail it.email) = true ∧
        (∀ q, normPhone it.phone = some q → validate_phone_fails q = false) ∧
        db.any (fun c => c.email == normEmail it.email) = false := by
  intro input
  induction input with
  | nil => intro idx seen ps errs _; simp [bulkLoop]
  | cons item rest ih =>
    intro idx seen ps errs herr
    simp only [bulkLoop] at herr ⊢
    cases hc : checkItem db seen item with
    | ok p =>
      rw [hc] at herr
      have hinv := (checkItem_ok_iff db seen item p).mp hc
      obtain ⟨hps, hfacts⟩ := ih (idx + 1) (seen ++ [p.email]) (ps ++ [p]) errs herr
      refine ⟨by rw [hps, hinv.2.2.2.2.2]; simp, ?_⟩
      intro it hit
      rcases List.mem_cons.mp hit with rfl | hit'
      · exact ⟨hinv.1, hinv.2.1, hinv.2.2.1, hinv.2.2.2.2.1⟩
      · exact hfacts it hit'
    | error m =>
      rw [hc] at herr
      exfalso
      have hlen := congrArg List.length
        (herr.symm.trans (bulkLoop_errors db rest (idx + 1) seen ps
          (errs ++ ["Item " ++ toString (idx + 1) ++ ": " ++ m])))
      simp at hlen

/-- When every item of the batch passes the context-free checks but its
normalised email is already persisted, the run rejects every item with the
already-exists message, accepts nothing and never touches the seen set. -/
lemma bulkLoop_all_exist (db2 : List Customer) :
    ∀ (input : List BulkCustomerInput) (idx : Nat)
      (ps : List Payload) (errs : List String),
      (∀ it ∈ input, ¬ pyStrip it.name = "" ∧ validate_email_ok (normEmail it.email) = true ∧
        (∀ q, normPhone it.phone = some q → validate_phone_fails q = false) ∧
        db2.any (fun c => c.email == normEmail it.email) = true) →
      bulkLoop db2 idx [] ps errs input = ([], ps, errs ++ alreadyExistsErrors idx input) := by
  intro input
  induction input with
  | nil => intro idx ps errs _; simp [bulkLoop, alreadyExistsErrors]
  | cons item rest ih =>
    intro idx ps errs h
    obtain ⟨h1, h2, h3, h5⟩ := h item (by simp)
    have hc : checkItem db2 [] item
        = Except.error ("Email already exists: " ++ normEmail item.email) :=
      checkItem_exists db2 [] item h1 h2 h3 (by simp) h5
    simp only [bulkLoop, hc]
    rw [ih (idx + 1) ps _ (fun it hit => h it (by simp [hit]))]
    simp [alreadyExistsErrors]

/-- Folding the literal pieces of a position-1 already-exists message. -/
lemma item1_exists (e : String) :
    "Item " ++ toString (1 : Nat) ++ ": " ++ ("Email already exists: " ++ e)
      = "Item 1: Email already exists: " ++ e := by
  obtain ⟨l⟩ := e; rfl

/-- Folding the literal pieces of a position-2 already-exists message. -/
lemma item2_exists (e : String) :
    "Item " ++ toString (2 : Nat) ++ ": " ++ ("Email already exists: " ++ e)
      = "Item 2: Email already exists: " ++ e := by
  obtain ⟨l⟩ := e; rfl

/-- Folding the literal pieces of a position-2 duplicate message. -/
lemma item2_dup (e : String) :
    "Item " ++ toString (2 : Nat) ++ ": " ++ ("Duplicate email in request: " ++ e)
      = "Item 2: Duplicate email in request: " ++ e := by
  obtain ⟨l⟩ := e; rfl

/-- C1: for every batch, the number of created records plus the number of
error strings equals the number of input candidates; an empty batch yields
empty created and empty errors. -/
theorem C1_partition (db : List Customer) (input : List BulkCustomerInput) :
    (BulkCreateCustomers.mutate db input).1.customers.length
        + (BulkCreateCustomers.mutate db input).1.errors.length = input.length ∧
    (BulkCreateCustomers.mutate db []).1.customers = [] ∧
    (BulkCreateCustomers.mutate db []).1.errors = [] := by
  refine ⟨?_, by simp [BulkCreateCustomers.mutate, bulkLoop],
    by simp [BulkCreateCustomers.mutate, bulkLoop]⟩
  have h := bulkLoop_length db input 0 [] [] []
  simp only [BulkCreateCustomers.mutate, List.length_map]
  simpa using h

/-- C9: the errors list carries one formatted string per rejected item, the
recorded positions are strictly increasing in original order, and each string
is prefixed with the 1-based position of the item. -/
theorem C9_error_positions (db : List Customer) (input : List BulkCustomerInput) :
    (BulkCreateCustomers.mutate db input).1.errors
      = (failuresFrom db 0 [] input).map
          (fun q => "Item " ++ toString (q.1 + 1) ++ ": " ++ q.2) ∧
    List.Chain' (fun a b => a < b) ((failuresFrom db 0 [] input).map Prod.fst) ∧
    (BulkCreateCustomers.mutate db input).1.errors.length
      = input.length - (BulkCreateCustomers.mutate db input).1.customers.length := by
  refine ⟨?_, failuresFrom_chain db input 0 [], ?_⟩
  · have h := bulkLoop_errors db input 0 [] [] []
    simpa [BulkCreateCustomers.mutate] using h
  · have h := bulkLoop_length db input 0 [] [] []
    simp only [BulkCreateCustomers.mutate, List.length_map]
    simp at h ⊢
    omega

/-- C10: every result carries success_count equal to the length of the
returned customers list and total_count equal to the length of the input
batch. -/
theorem C10_counters (db : List Customer) (input : List BulkCustomerInput) :
    (BulkCreateCustomers.mutate db input).1.success_count
        = (BulkCreateCustomers.mutate db input).1.customers.length ∧
    (BulkCreateCustomers.mutate db input).1.total_count = input.length :=
  ⟨rfl, rfl⟩

/-- C3: the five validation checks are applied in the fixed order name,
email syntax, phone format, intra-batch duplicate, pre-existing email; the
first failing check alone determines the error, and in particular the batch
with a bad email and a bad phone is rejected for the email, not the phone. -/
theorem C3_check_order (db : List Customer) (seen : List String) (item : BulkCustomerInput) :
    (pyStrip item.name = "" → checkItem db seen item = Except.error "Name is required.") ∧
    (¬ pyStrip item.name = "" → validate_email_ok (normEmail item.email) = false →
      checkItem db seen item = Except.error "Enter a valid email address.") ∧
    (¬ pyStrip item.name = "" → validate_email_ok (normEmail item.email) = true →
      (∃ q, normPhone item.phone = some q ∧ validate_phone_fails q = true) →
      checkItem db seen item
        = Except.error "Invalid phone format. Use +1234567890 or 123-456-7890.") ∧
    (¬ pyStrip item.name = "" → validate_email_ok (normEmail item.email) = true →
      (∀ q, normPhone item.phone = some q → validate_phone_fails q = false) →
      normEmail item.email ∈ seen →
      checkItem db seen item
        = Except.error ("Duplicate email in request: " ++ normEmail item.email)) ∧
    (¬ pyStrip item.name = "" → validate_email_ok (normEmail item.email) = true →
      (∀ q, normPhone item.phone = some q → validate_phone_fails q = false) →
      ¬ normEmail item.email ∈ seen →
      db.any (fun c => c.email == normEmail item.email) = true →
      checkItem db seen item
        = Except.error ("Email already exists: " ++ normEmail item.email)) ∧
    (¬ pyStrip item.name = "" → validate_email_ok (normEmail item.email) = true →
      (∀ q, normPhone item.phone = some q → validate_phone_fails q = false) →
      ¬ normEmail item.email ∈ seen →
      db.any (fun c => c.email == normEmail item.email) = false →
      checkItem db seen item = Except.ok (normalizeItem item)) ∧
    (BulkCreateCustomers.mutate [] [⟨"D", "bad-email", some "123"⟩]).1.errors
      = ["Item 1: Enter a valid email address."] := by
  refine ⟨?_, ?_, ?_, ?_, ?_, ?_, by decide⟩
  · intro h1; simp [checkItem, h1]
  · intro h1 h2; simp [checkItem, h1, h2]
  · rintro h1 h2 ⟨q, hq, hfq⟩; simp [checkItem, h1, h2, hq, hfq]
  · exact fun h1 h2 h3 h4 => checkItem_dup db seen item h1 h2 h3 h4
  · exact fun h1 h2 h3 h4 h5 => checkItem_exists db seen item h1 h2 h3 h4 h5
  · intro h1 h2 h3 h4 h5
    exact (checkItem_ok_iff db seen item (normalizeItem item)).mpr ⟨h1, h2, h3, h4, h5, rfl⟩

/-- Witness for C3: the candidate with both a malformed email and a
malformed phone is rejected with the email message. -/
theorem C3_check_order_witness :
    checkItem [] [] ⟨"D", "bad-email", some "123"⟩
      = Except.error "Enter a valid email address." :=
  (C3_check_order [] [] ⟨"D", "bad-email", some "123"⟩).2.1 (by decide) (by decide)

/-- C4 counterexample: the string of ten digits with no plus sign matches
neither shape the claim admits, yet the mutation accepts the candidate and
creates the record with that phone, with no errors. -/
theorem C4_counterexample :
    specPlusForm "1234567890" = false ∧
    dashedForm "1234567890".data = false ∧
    (BulkCreateCustomers.mutate [] [⟨"A", "a@x.com", some "1234567890"⟩]).1.errors = [] ∧
    (BulkCreateCustomers.mutate [] [⟨"A", "a@x.com", some "1234567890"⟩]).1.customers
      = [⟨"A", "a@x.com", some "1234567890"⟩] := by decide

/-- C4 amended: the plus sign in the international shape is optional in the
source regex.  A present, nonempty phone is rejected with the phone-format
error exactly when it matches neither optional-plus international shape nor
the dashed shape (and does not use the trailing-newline allowance of the
dollar anchor); a phone matching either shape passes the phone check. -/
theorem C4_phone_shapes (db : List Customer) (seen : List String)
    (item : BulkCustomerInput) (p : String)
    (h1 : ¬ pyStrip item.name = "")
    (h2 : validate_email_ok (normEmail item.email) = true)
    (hp : normPhone item.phone = some p) (hne : ¬ p = "") :
    (intlForm p.data = false → dashedForm p.data = false →
      ¬ p.data.getLast? = some '\n' →
      checkItem db seen item
        = Except.error "Invalid phone format. Use +1234567890 or 123-456-7890.") ∧
    ((intlForm p.data || dashedForm p.data) = true →
      ¬ normEmail item.email ∈ seen →
      db.any (fun c => c.email == normEmail item.email) = false →
      checkItem db seen item
        = Except.ok ⟨pyStrip item.name, normEmail item.email, some p⟩) := by
  constructor
  · intro hi hd hn
    have hmatch : phoneMatch p = false := by
      simp only [phoneMatch, phoneCore, hi, hd, Bool.or_false, Bool.false_or]
      cases hl : p.data.getLast? with
      | none => rfl
      | some c =>
        have : ¬ c = '\n' := fun hc => hn (by rw [hl, hc])
        simp [this]
    have hfail : validate_phone_fails p = true := by
      simp [validate_phone_fails, hmatch, hne]
    simp [checkItem, h1, h2, hp, hfail]
  · intro hshape h4 h5
    have hmatch : phoneMatch p = true := by
      simp [phoneMatch, phoneCore, hshape]
    have hfail : validate_phone_fails p = false := by
      simp [validate_phone_fails, hmatch]
    have := (checkItem_ok_iff db seen item (normalizeItem item)).mpr
      ⟨h1, h2, fun q hq => by rw [hp] at hq; cases hq; exact hfail, h4, h5, rfl⟩
    rw [this, normalizeItem, hp]

/-- Witness for C4: a two-digit phone fails the phone check, and a plain
ten-digit phone with no plus sign passes it and is accepted. -/
theorem C4_phone_shapes_witness :
    checkItem [] [] ⟨"A", "a@x.com", some "12"⟩
      = Except.error "Invalid phone format. Use +1234567890 or 123-456-7890." ∧
    checkItem [] [] ⟨"B", "b@x.com", some "1234567890"⟩
      = Except.ok ⟨"B", "b@x.com", some "1234567890"⟩ :=
  ⟨(C4_phone_shapes [] [] ⟨"A", "a@x.com", some "12"⟩ "12" (by decide) (by decide)
      (by decide) (by decide)).1 (by decide) (by decide) (by decide),
   (C4_phone_shapes [] [] ⟨"B", "b@x.com", some "1234567890"⟩ "1234567890" (by decide)
      (by decide) (by decide) (by decide)).2 (by decide) (by decide) (by decide)⟩

/-- C2: the valid payloads are an order-preserving selection of the
normalised batch items; when no persistence call fails they are all inserted
after the existing rows, and when any persistence call fails the whole call
surfaces a single terminal error with no created records and the table rolls
back unchanged. -/
theorem C2_atomic_persistence (db : List Customer) (input : List BulkCustomerInput)
    (failsOn : Payload → Bool) :
    List.Sublist (bulkLoop db 0 [] [] [] input).2.1 (input.map normalizeItem) ∧
    ((∀ p ∈ (bulkLoop db 0 [] [] [] input).2.1, failsOn p = false) →
      mutateFallible db input failsOn
        = (some (BulkCreateCustomers.mutate db input).1,
           db ++ ((bulkLoop db 0 [] [] [] input).2.1).map Payload.toCustomer)) ∧
    ((∃ p ∈ (bulkLoop db 0 [] [] [] input).2.1, failsOn p = true) →
      mutateFallible db input failsOn = (none, db)) := by
  refine ⟨?_, ?_, ?_⟩
  · obtain ⟨t, ht, hs⟩ := bulkLoop_payloads_sublist db input 0 [] [] []
    rw [ht]; simpa using hs
  · intro hok
    rcases hps : (bulkLoop db 0 [] [] [] input).2.1 with _ | ⟨q, rest⟩
    · simp [mutateFallible, BulkCreateCustomers.mutate, hps]
    · rw [hps] at hok
      have hc := createLoop_ok failsOn (q :: rest) db hok
      simp [mutateFallible, BulkCreateCustomers.mutate, hps, hc]
  · rintro ⟨p, hp, hfp⟩
    obtain ⟨e, he⟩ := createLoop_error failsOn _ db ⟨p, hp, hfp⟩
    rcases hps : (bulkLoop db 0 [] [] [] input).2.1 with _ | ⟨q, rest⟩
    · rw [hps] at hp; cases hp
    · rw [hps] at he
      simp [mutateFallible, hps, he]

/-- Witness for C2: a batch whose single valid payload hits a failing
persistence call returns no result object and leaves the table unchanged. -/
theorem C2_atomic_persistence_witness :
    mutateFallible [] [⟨"A", "a@x.com", none⟩] (fun _ => true) = (none, []) := by
  have h := C2_atomic_persistence [] [⟨"A", "a@x.com", none⟩] (fun _ => true)
  exact h.2.2 ⟨⟨"A", "a@x.com", none⟩, by decide, rfl⟩

/-- C5: in a two-candidate batch sharing one normalised email, with the
first fully valid and the second passing the name, email and phone checks,
the first is created, the second is rejected with the duplicate message, and
in every batch the accepted payloads carry pairwise distinct emails. -/
theorem C5_duplicate_second (db : List Customer) (a b : BulkCustomerInput) (pa : Payload)
    (ha : checkItem db [] a = Except.ok pa)
    (hemail : normEmail b.email = pa.email)
    (hb1 : ¬ pyStrip b.name = "")
    (hb3 : ∀ q, normPhone b.phone = some q → validate_phone_fails q = false) :
    ((BulkCreateCustomers.mutate db [a, b]).1.customers = [pa.toCustomer] ∧
     (BulkCreateCustomers.mutate db [a, b]).1.errors
       = ["Item 2: Duplicate email in request: " ++ pa.email] ∧
     (BulkCreateCustomers.mutate db [a, b]).2 = db ++ [pa.toCustomer]) ∧
    ∀ input : List BulkCustomerInput,
      (((bulkLoop db 0 [] [] [] input).2.1).map Payload.email).Nodup := by
  have hinv := (checkItem_ok_iff db [] a pa).mp ha
  have hpa_email : pa.email = normEmail a.email := by rw [hinv.2.2.2.2.2]; rfl
  have hb2 : validate_email_ok (normEmail b.email) = true := by
    rw [hemail, hpa_email]; exact hinv.2.1
  have hcb : checkItem db [pa.email] b
      = Except.error ("Duplicate email in request: " ++ normEmail b.email) :=
    checkItem_dup db [pa.email] b hb1 hb2 hb3 (by simp [hemail])
  refine ⟨?_, fun input => bulkLoop_nodup db input 0 [] [] [] (by simp) (by simp)⟩
  refine ⟨?_, ?_, ?_⟩ <;>
    simp [BulkCreateCustomers.mutate, bulkLoop, ha, hcb, hemail, item2_dup]

/-- Witness for C5: the two-Bob batch creates one record and reports one
duplicate error. -/
theorem C5_duplicate_second_witness :
    (BulkCreateCustomers.mutate []
        [⟨"Bob", "bob@x.com", none⟩, ⟨"Bob2", "bob@x.com", none⟩]).1.customers
      = [⟨"Bob", "bob@x.com", none⟩] ∧
    (BulkCreateCustomers.mutate []
        [⟨"Bob", "bob@x.com", none⟩, ⟨"Bob2", "bob@x.com", none⟩]).1.errors
      = ["Item 2: Duplicate email in request: bob@x.com"] := by
  have h := C5_duplicate_second [] ⟨"Bob", "bob@x.com", none⟩ ⟨"Bob2", "bob@x.com", none⟩
    ⟨"Bob", "bob@x.com", none⟩ (by rfl) (by rfl) (by decide) (fun q hq => nomatch hq)
  exact ⟨h.1.1, h.1.2.1.trans (by decide)⟩

/-- C6 counterexample: with the shared email already persisted, the second
candidate of the batch is rejected with the already-exists message, not the
intra-batch duplicate message the claim predicts. -/
theorem C6_counterexample :
    (BulkCreateCustomers.mutate [⟨"X", "a@x.com", none⟩]
        [⟨"A", "a@x.com", none⟩, ⟨"B", "a@x.com", none⟩]).1.errors
      = ["Item 1: Email already exists: a@x.com",
         "Item 2: Email already exists: a@x.com"] ∧
    ¬ (BulkCreateCustomers.mutate [⟨"X", "a@x.com", none⟩]
        [⟨"A", "a@x.com", none⟩, ⟨"B", "a@x.com", none⟩]).1.errors[1]?
      = some "Item 2: Duplicate email in request: a@x.com" := by decide

/-- C6 amended: the seen-emails set is populated exactly by the fully valid
candidates, so a candidate rejected at the already-exists check leaves no
trace in it, and a later candidate with the same normalised email is also
rejected with the already-exists error, not the duplicate error. -/
theorem C6_seen_only_fully_valid (db : List Customer) :
    (∀ input : List BulkCustomerInput,
      (bulkLoop db 0 [] [] [] input).1
        = ((bulkLoop db 0 [] [] [] input).2.1).map Payload.email) ∧
    ∀ (a b : BulkCustomerInput) (e : String),
      normEmail a.email = e → normEmail b.email = e →
      ¬ pyStrip a.name = "" →
      (∀ q, normPhone a.phone = some q → validate_phone_fails q = false) →
      ¬ pyStrip b.name = "" →
      (∀ q, normPhone b.phone = some q → validate_phone_fails q = false) →
      validate_email_ok e = true →
      db.any (fun c => c.email == e) = true →
      (BulkCreateCustomers.mutate db [a, b]).1.errors
        = ["Item 1: Email already exists: " ++ e,
           "Item 2: Email already exists: " ++ e] ∧
      (BulkCreateCustomers.mutate db [a, b]).1.customers = [] := by
  refine ⟨fun input => bulkLoop_seen db input 0 [] [] [] (by simp), ?_⟩
  intro a b e hae hbe ha1 ha3 hb1 hb3 hemail hex
  have h := bulkLoop_all_exist db [a, b] 0 [] [] ?facts
  case facts =>
    intro it hit
    rcases List.mem_cons.mp hit with rfl | hit'
    · exact ⟨ha1, by rw [hae]; exact hemail, ha3, by rw [hae]; exact hex⟩
    · rcases List.mem_singleton.mp hit' with rfl
      exact ⟨hb1, by rw [hbe]; exact hemail, hb3, by rw [hbe]; exact hex⟩
  constructor
  · simp [BulkCreateCustomers.mutate, h, alreadyExistsErrors, hae, hbe,
      item1_exists, item2_exists]
  · simp [BulkCreateCustomers.mutate, h]

/-- Witness for C6 amended: the concrete batch of the counterexample falls
under the amended statement. -/
theorem C6_seen_only_fully_valid_witness :
    (BulkCreateCustomers.mutate [⟨"X", "a@x.com", none⟩]
        [⟨"A", "a@x.com", none⟩, ⟨"Bea", "a@x.com", none⟩]).1.customers = [] := by
  have h := (C6_seen_only_fully_valid [⟨"X", "a@x.com", none⟩]).2
    ⟨"A", "a@x.com", none⟩ ⟨"Bea", "a@x.com", none⟩ "a@x.com" (by rfl) (by rfl)
    (by decide) (fun q hq => nomatch hq) (by decide) (fun q hq => nomatch hq)
    (by decide) (by decide)
  exact h.2

/-- C7: if a first call on some table succeeded for every candidate, then
resubmitting the exact same batch creates nothing, reports the already-exists
error for every item, and leaves the table unchanged. -/
theorem C7_resubmission (db : List Customer) (input : List BulkCustomerInput)
    (h : (BulkCreateCustomers.mutate db input).1.errors = []) :
    (BulkCreateCustomers.mutate
        (BulkCreateCustomers.mutate db input).2 input).1.customers = [] ∧
    (BulkCreateCustomers.mutate
        (BulkCreateCustomers.mutate db input).2 input).1.success_count = 0 ∧
    (BulkCreateCustomers.mutate
        (BulkCreateCustomers.mutate db input).2 input).1.errors
      = alreadyExistsErrors 0 input ∧
    (BulkCreateCustomers.mutate
        (BulkCreateCustomers.mutate db input).2 input).2
      = (BulkCreateCustomers.mutate db input).2 := by
  have herr : (bulkLoop db 0 [] [] [] input).2.2 = [] := by
    simpa [BulkCreateCustomers.mutate] using h
  obtain ⟨hps, hfacts⟩ := bulkLoop_all_valid db input 0 [] [] [] herr
  have hdb2 : (BulkCreateCustomers.mutate db input).2
      = db ++ (input.map normalizeItem).map Payload.toCustomer := by
    simp [BulkCreateCustomers.mutate, hps]
  have hall : ∀ it ∈ input, ¬ pyStrip it.name = "" ∧
      validate_email_ok (normEmail it.email) = true ∧
      (∀ q, normPhone it.phone = some q → validate_phone_fails q = false) ∧
      ((BulkCreateCustomers.mutate db input).2).any
        (fun c => c.email == normEmail it.email) = true := by
    intro it hit
    obtain ⟨h1, h2, h3, _⟩ := hfacts it hit
    refine ⟨h1, h2, h3, ?_⟩
    rw [hdb2]
    refine List.any_eq_true.mpr ⟨(normalizeItem it).toCustomer, ?_, ?_⟩
    · exact List.mem_append_right _ (List.mem_map_of_mem _ (List.mem_map_of_mem _ hit))
    · simp [Payload.toCustomer, normalizeItem, normEmail]
  have h2run := bulkLoop_all_exist (BulkCreateCustomers.mutate db input).2 input 0 [] [] hall
  have h2run' : bulkLoop (db ++ List.map Payload.toCustomer (List.map normalizeItem input))
      0 [] [] [] input = ([], [], [] ++ alreadyExistsErrors 0 input) := by
    rw [← hdb2]; exact h2run
  simp only [List.map_map, List.nil_append] at h2run'
  refine ⟨?_, ?_, ?_, ?_⟩ <;> simp [BulkCreateCustomers.mutate, hps, h2run']

/-- Witness for C7: resubmitting the one-Alice batch after a fully
successful first call creates nothing and reports only already-exists. -/
theorem C7_resubmission_witness :
    (BulkCreateCustomers.mutate (BulkCreateCustomers.mutate []
        [⟨"Alice", "alice@x.com", none⟩]).2 [⟨"Alice", "alice@x.com", none⟩]).1.customers
      = [] ∧
    (BulkCreateCustomers.mutate (BulkCreateCustomers.mutate []
        [⟨"Alice", "alice@x.com", none⟩]).2 [⟨"Alice", "alice@x.com", none⟩]).1.errors
      = ["Item 1: Email already exists: alice@x.com"] := by
  have h := C7_resubmission [] [⟨"Alice", "alice@x.com", none⟩] (by decide)
  exact ⟨h.1, h.2.2.1.trans (by decide)⟩

/-- C8: every accepted payload stores the trimmed and lower-cased email, the
upper-case Alice batch on empty storage is created with the lower-cased
email and no errors, and a differently-cased, untrimmed spelling of a
persisted email is rejected at the normalised comparison. -/
theorem C8_stores_normalized (db : List Customer) (seen : List String)
    (item : BulkCustomerInput) (p : Payload)
    (h : checkItem db seen item = Except.ok p) :
    p.email = pyLower (pyStrip item.email) ∧
    (BulkCreateCustomers.mutate []
        [⟨"Alice", "ALICE@x.com", some "+1234567890"⟩]).1.customers
      = [⟨"Alice", "alice@x.com", some "+1234567890"⟩] ∧
    (BulkCreateCustomers.mutate []
        [⟨"Alice", "ALICE@x.com", some "+1234567890"⟩]).1.errors = [] ∧
    (BulkCreateCustomers.mutate [⟨"A", "alice@x.com", none⟩]
        [⟨"B", " ALICE@x.com ", none⟩]).1.errors
      = ["Item 1: Email already exists: alice@x.com"] ∧
    (BulkCreateCustomers.mutate [⟨"A", "alice@x.com", none⟩]
        [⟨"B", " ALICE@x.com ", none⟩]).1.customers = [] := by
  refine ⟨?_, by decide, by decide, by decide, by decide⟩
  have hp := ((checkItem_ok_iff db seen item p).mp h).2.2.2.2.2
  rw [hp]; rfl

/-- Witness for C8: the accepted Alice payload stores the normalised form of
the submitted upper-case email. -/
theorem C8_stores_normalized_witness :
    (⟨"Alice", "alice@x.com", some "+1234567890"⟩ : Payload).email
      = pyLower (pyStrip "ALICE@x.com") :=
  (C8_stores_normalized [] [] ⟨"Alice", "ALICE@x.com", some "+1234567890"⟩
    ⟨"Alice", "alice@x.com", some "+1234567890"⟩ (by rfl)).1

end CRM
